import Mathlib

/-!
Verification of the smarthome dashboard's two core subsystems against their
design specification.

The embedding models the frontend widgets:
* `Ruuvi`  — the stream connection supervisor of
  `src/frontend/src/components/RuuviWidget.vue` (throttle/promote of display
  data, watchdog and health-check liveness detection, rolling-average buffers).
* `Reconn` — the reconnect-timer bookkeeping of the same widget
  (`socket.onclose` / `connect`), abstracted as a counting state machine.
* `Stock`  — the adaptive poll scheduler of
  `src/frontend/src/components/StockWatchlist.vue` (market gate, dead zone,
  quota priority, forced single-symbol fetches, failure handling).

Wall-clock instants are naturals (Ruuvi, milliseconds since session start) or
integers (Stock, epoch milliseconds, mirroring JS `Date.now()` subtraction).
JS numbers used for sensor readings and prices are modelled as rationals.
-/

namespace Ruuvi

/-- Source `THROTTLE_MS` constant of RuuviWidget.vue: update UI every 2 seconds. -/
def THROTTLE_MS : Nat := 2000

/-- Source `WATCHDOG_MS` constant: if silence for 45s, assume dead. -/
def WATCHDOG_MS : Nat := 45000

/-- Source `RECONNECT_MS` constant: try reconnecting every 3s. -/
def RECONNECT_MS : Nat := 3000

/-- Source `HEARTBEAT_MS` constant: send a ping every 20s. -/
def HEARTBEAT_MS : Nat := 20000

/-- Source `HEALTHCHECK_MS` constant: health check every 10s. -/
def HEALTHCHECK_MS : Nat := 10000

/-- Source `HISTORY_SIZE` constant: rolling-average buffer capacity. -/
def HISTORY_SIZE : Nat := 50

/-- The `SensorData` payload schema of `types.ts` / the stream message schema. -/
structure SensorData where
  mac : Nat
  humidity : ℚ
  temperature : ℚ
  pressure : ℚ
  battery : ℚ
  rssi : ℚ
  timestamp : Nat
deriving DecidableEq

/-- Source `updateHistory` of RuuviWidget.vue: push the new value, then if the buffer
exceeds `HISTORY_SIZE` drop the oldest element (`shift`). -/
def updateHistory (history : List ℚ) (newValue : ℚ) : List ℚ :=
  let pushed := history ++ [newValue]
  if HISTORY_SIZE < pushed.length then pushed.drop 1 else pushed

/-- Source `calculateAverage` of RuuviWidget.vue: 0 on the empty buffer, else
`reduce(+)/length`. -/
def calculateAverage (arr : List ℚ) : ℚ :=
  if arr.length = 0 then 0 else arr.foldl (fun a b => a + b) 0 / (arr.length : ℚ)

/-- The mutable widget state of RuuviWidget.vue that the claims are about:
`isConnected`, `latestData`, `displayData`, the throttle-timer pending flag
(`throttleTimer !== null`), the three rolling buffers, `lastMessageAt`, the
instant the armed watchdog would fire, and the close code recorded when the
current socket has been force-closed (`none` while it is open). -/
structure State where
  isConnected : Bool
  latestData : Option SensorData
  displayData : Option SensorData
  throttlePending : Bool
  tempHistory : List ℚ
  humidityHistory : List ℚ
  pressureHistory : List ℚ
  lastMessageAt : Nat
  watchdogDeadline : Nat
  closedCode : Option Nat
deriving DecidableEq

/-- The state effects of `connect()` in RuuviWidget.vue: the pending reconnect
timer is cleared (modelled in `Reconn`), the old socket is released and a fresh
one created (so no close code is recorded for it), `isConnected := false` and
all three rolling buffers are emptied (`length = 0`). -/
def connect (s : State) : State :=
  { s with isConnected := false, tempHistory := [], humidityHistory := [],
           pressureHistory := [], closedCode := none }

/-- Session events while a socket exists: an accepted data message at time `t`
with parsed payload `d`, a literal `pong` keepalive acknowledgment at time `t`,
the throttle (promote) timer firing at time `t`, and a health-check interval
tick at time `t`. -/
inductive Event where
  | data (t : Nat) (d : SensorData)
  | pong (t : Nat)
  | fire (t : Nat)
  | health (t : Nat)
deriving DecidableEq

/-- Timestamp of an event. -/
def Event.time : Event → Nat
  | .data t _ => t
  | .pong t => t
  | .fire t => t
  | .health t => t

/-- One step of the supervisor, embedding `socket.onmessage` (both branches),
the throttle timer callback and the `startHealthCheck` interval callback.
On a data message: `lastMessageAt` is stamped, the watchdog reset, `latestData`
updated, all three buffers pushed, and — exactly when no throttle timer is
pending — the payload is promoted to `displayData` and the timer armed.
On `pong`: only `lastMessageAt` and the watchdog are touched (the handler
stamps `lastMessageAt` and calls `resetWatchdog` before the pong
short-circuit). On a throttle fire: `latestData` (if any) is promoted and the
pending flag cleared. On a health tick: the socket is closed with code 4001
when `now - lastMessageAt > WATCHDOG_MS`. -/
def step (s : State) : Event → State
  | .data t d =>
    if s.throttlePending then
      { s with lastMessageAt := t, watchdogDeadline := t + WATCHDOG_MS,
               latestData := some d,
               tempHistory := updateHistory s.tempHistory d.temperature,
               humidityHistory := updateHistory s.humidityHistory d.humidity,
               pressureHistory := updateHistory s.pressureHistory d.pressure }
    else
      { s with lastMessageAt := t, watchdogDeadline := t + WATCHDOG_MS,
               latestData := some d,
               tempHistory := updateHistory s.tempHistory d.temperature,
               humidityHistory := updateHistory s.humidityHistory d.humidity,
               pressureHistory := updateHistory s.pressureHistory d.pressure,
               displayData := some d, throttlePending := true }
  | .pong t => { s with lastMessageAt := t, watchdogDeadline := t + WATCHDOG_MS }
  | .fire _ =>
    match s.latestData with
    | some d => { s with displayData := some d, throttlePending := false }
    | none => { s with throttlePending := false }
  | .health t =>
    if WATCHDOG_MS < t - s.lastMessageAt then { s with closedCode := some 4001 } else s

/-- Run a sequence of session events. -/
def run (s : State) (es : List Event) : State := es.foldl step s

/-- The state right after `socket.onopen` at time 0: connected, empty buffers,
`lastMessageAt := 0`, watchdog armed, nothing received yet. -/
def initOpen : State :=
  { isConnected := true, latestData := none, displayData := none,
    throttlePending := false, tempHistory := [], humidityHistory := [],
    pressureHistory := [], lastMessageAt := 0, watchdogDeadline := WATCHDOG_MS,
    closedCode := none }

/-- Well-formed timed traces: `now` is the time of the last event processed and
`pend` the instant the armed throttle timer will fire (`none` when idle).
Time is monotone; while a timer is armed every event happens no later than the
fire instant and the fire event happens exactly at it; an accepted data message
when idle arms the timer `THROTTLE_MS` later — exactly the single-threaded
`setTimeout` discipline of the runtime. -/
def wfB : Nat → Option Nat → List Event → Bool
  | _, _, [] => true
  | now, none, .data t _ :: es =>
      decide (now ≤ t) && wfB t (some (t + THROTTLE_MS)) es
  | now, some tf, .data t _ :: es =>
      decide (now ≤ t) && decide (t ≤ tf) && wfB t (some tf) es
  | _, none, .fire _ :: _ => false
  | now, some tf, .fire t :: es =>
      decide (now ≤ t) && decide (t = tf) && wfB t none es
  | now, pend, .pong t :: es =>
      decide (now ≤ t) &&
        (match pend with | some tf => decide (t ≤ tf) | none => true) && wfB t pend es
  | now, pend, .health t :: es =>
      decide (now ≤ t) &&
        (match pend with | some tf => decide (t ≤ tf) | none => true) && wfB t pend es

/-- Times of the immediate (message-triggered) promotions along a trace:
data messages processed while no throttle timer is pending. -/
def msgPromotes : State → List Event → List Nat
  | _, [] => []
  | s, .data t d :: es =>
      if s.throttlePending then msgPromotes (step s (.data t d)) es
      else t :: msgPromotes (step s (.data t d)) es
  | s, e :: es => msgPromotes (step s e) es

/-- Times at which the displayed value actually changes along a trace. -/
def displayChangeTimes : State → List Event → List Nat
  | _, [] => []
  | s, e :: es =>
      if (step s e).displayData = s.displayData then displayChangeTimes (step s e) es
      else e.time :: displayChangeTimes (step s e) es

/-- Predicate `spacedB n l`: consecutive entries of `l` are at least `n` apart. -/
def spacedB (n : Nat) : List Nat → Bool
  | a :: b :: rest => decide (a + n ≤ b) && spacedB n (b :: rest)
  | _ => true

/-- Time of the last accepted data message of a trace (`t0` if none). -/
def lastDataAt : Nat → List Event → Nat
  | t0, [] => t0
  | _, .data t _ :: es => lastDataAt t es
  | t0, _ :: es => lastDataAt t0 es

/-- Time of the last inbound message of any kind, keepalives included
(`t0` if none) — the value the code keeps in `lastMessageAt`. -/
def lastMsgAt : Nat → List Event → Nat
  | t0, [] => t0
  | _, .data t _ :: es => lastMsgAt t es
  | _, .pong t :: es => lastMsgAt t es
  | t0, _ :: es => lastMsgAt t0 es

/-- Lower bound on future immediate promotions: the pending fire instant, or
the current time when idle. -/
def pendBound (now : Nat) : Option Nat → Nat
  | some tf => tf
  | none => now

/-- Concrete payloads for counterexample traces. -/
def mkData (n : Nat) : SensorData :=
  { mac := n, humidity := n, temperature := n, pressure := n,
    battery := n, rssi := n, timestamp := n }

/-- Last `n` elements of a list, in order. -/
def lastN (n : Nat) (l : List α) : List α := l.drop (l.length - n)

/-- Temperatures of the accepted data messages of a trace, in arrival order. -/
def dataTemps : List Event → List ℚ
  | [] => []
  | .data _ d :: es => d.temperature :: dataTemps es
  | _ :: es => dataTemps es

/-- Humidities of the accepted data messages of a trace, in arrival order. -/
def dataHums : List Event → List ℚ
  | [] => []
  | .data _ d :: es => d.humidity :: dataHums es
  | _ :: es => dataHums es

/-- Pressures of the accepted data messages of a trace, in arrival order. -/
def dataPres : List Event → List ℚ
  | [] => []
  | .data _ d :: es => d.pressure :: dataPres es
  | _ :: es => dataPres es

end Ruuvi

namespace Reconn

/-!
Reconnect-timer bookkeeping of RuuviWidget.vue. The runtime can in principle
hold several live `setTimeout` handles, so the model tracks the number of
reconnect timers actually pending (`pendingCount`) next to the widget's
`reconnectTimer` variable (`timerVar` — whether it is non-null), and each
handler is translated from the source:
* `socket.onclose` creates a timer only when the variable is null;
* the reconnect callback nulls the variable first, then calls `connect()`
  (whose cleanup finds it null);
* `connect()` (mount or visibility transition to foreground without an open
  socket) clears and nulls any pending timer;
* `socket.onopen` does not touch the reconnect timer.
-/

/-- Reconnect bookkeeping state: how many reconnect timers are live in the
runtime, and whether the `reconnectTimer` variable is non-null. -/
structure RTState where
  pendingCount : Nat
  timerVar : Bool
deriving DecidableEq

/-- Interleavable events: a socket close, a reconnect timer firing, a call to
`connect()` from mount or a background-to-foreground visibility transition,
and a socket open signal. -/
inductive REvent where
  | close
  | fireReconnect
  | connectCall
  | openSignal
deriving DecidableEq

/-- One step of the reconnect bookkeeping, from the source handlers. A
`fireReconnect` consumes the pending timer (the callback nulls the variable and
the `connect()` it calls finds nothing to clear); it can only occur when a
timer is live, which in every reachable state coincides with `timerVar`. -/
def rstep (s : RTState) : REvent → RTState
  | .close =>
      if s.timerVar then s
      else { pendingCount := s.pendingCount + 1, timerVar := true }
  | .fireReconnect =>
      if s.timerVar then { pendingCount := s.pendingCount - 1, timerVar := false }
      else s
  | .connectCall =>
      if s.timerVar then { pendingCount := s.pendingCount - 1, timerVar := false }
      else s
  | .openSignal => s

/-- Initial state on widget mount: no reconnect timer exists. -/
def initR : RTState := { pendingCount := 0, timerVar := false }

/-- Run an interleaving of close/fire/connect/open events. -/
def runReconn (s : RTState) (es : List REvent) : RTState := es.foldl rstep s

end Reconn

namespace Stock

/-- Weekday as produced by the NY-calendar formatter (`'Sat'`/`'Sun'` checks)
and by the browser-local `Date.getDay()` (0 = Sunday, 6 = Saturday). -/
inductive Weekday where
  | sun | mon | tue | wed | thu | fri | sat
deriving DecidableEq

/-- The wall-clock inputs a scheduler tick reads: the current New York weekday,
hour and minute (via `Intl.DateTimeFormat`), the browser-local weekday (via
`Date.getDay()`), and the epoch-millisecond clock `Date.now()`. -/
structure Ctx where
  nyWeekday : Weekday
  nyHour : Nat
  nyMinute : Nat
  localDay : Weekday
  nowMs : Int
deriving DecidableEq

/-- Source `MARKET_OPEN_MIN` constant of StockWatchlist.vue: 9:30 NY. -/
def MARKET_OPEN_MIN : Nat := 9 * 60 + 30

/-- Source `MARKET_CLOSE_MIN` constant: 16:00 NY. -/
def MARKET_CLOSE_MIN : Nat := 16 * 60

/-- Source `CLOSE_OFFSET` constant: 30 minutes of closing buffer. -/
def CLOSE_OFFSET : Nat := 30

/-- Source `QUOTE_INTERVAL_MS` constant: 10 minutes. -/
def QUOTE_INTERVAL_MS : Int := 10 * 60 * 1000

/-- Source `HISTORY_INTERVAL_MS` constant: 15 minutes. -/
def HISTORY_INTERVAL_MS : Int := 15 * 60 * 1000

/-- Source `OFFSET_MS` constant: 2 minutes of safety offset between the two calls. -/
def OFFSET_MS : Int := 2 * 60 * 1000

/-- Source `isMarketOpen` of StockWatchlist.vue: weekday in NY, and the NY
minute-of-day within `[MARKET_OPEN_MIN, MARKET_CLOSE_MIN + CLOSE_OFFSET)`. -/
def isMarketOpen (c : Ctx) : Bool :=
  if c.nyWeekday = .sat ∨ c.nyWeekday = .sun then false
  else
    let currentMins := c.nyHour * 60 + c.nyMinute
    decide (MARKET_OPEN_MIN ≤ currentMins) &&
      decide (currentMins < MARKET_CLOSE_MIN + CLOSE_OFFSET)

/-- Source `needsClosingFetch` of StockWatchlist.vue: market closed, browser-local
weekday, and the last quote fetch older than 45 minutes. -/
def needsClosingFetch (c : Ctx) (lastQuoteFetchTime : Int) : Bool :=
  if isMarketOpen c then false
  else if c.localDay = .sun ∨ c.localDay = .sat then false
  else decide (45 * 60 * 1000 < c.nowMs - lastQuoteFetchTime)

/-- Source `isDeadZone` of StockWatchlist.vue: NY time in [9:30, 9:35). -/
def isDeadZone (c : Ctx) : Bool :=
  decide (c.nyHour = 9) && decide (30 ≤ c.nyMinute) && decide (c.nyMinute < 35)

/-- History resolution selector: `'1min'` (forced/high-resolution) or `'5min'`
(background batches). -/
inductive Interval where
  | one
  | five
deriving DecidableEq

/-- A quote record as the view layer reads it. The server's quote rows carry
`close` and `percent_change`; the client-side fallback literal carries `price`,
`change` and `changePercent` only. Absent fields are `none` (JS `undefined`). -/
structure QuoteView where
  price : Option ℚ
  change : Option ℚ
  changePercent : Option ℚ
  close : Option ℚ
  percent_change : Option ℚ
deriving DecidableEq

/-- The fallback literal of `getQuote`:
`{ price: 0, change: 0, changePercent: 0 }`. -/
def fallbackQuote : QuoteView :=
  { price := some 0, change := some 0, changePercent := some 0,
    close := none, percent_change := none }

/-- Outcome of one network call: the resolved response or a rejection. -/
inductive FetchResult (α : Type) where
  | ok (v : α)
  | fail
deriving DecidableEq

/-- A network call performed by the widget, with the symbols requested and,
for history, the interval selector. -/
inductive Call where
  | quotes (syms : List String)
  | history (syms : List String) (i : Interval)
deriving DecidableEq

/-- The scheduler-relevant state of StockWatchlist.vue: the watchlist symbols,
the per-symbol quote map, the per-interval history buckets, the selected
symbol, the two `lastFetchAt` clocks and the initial-history gate. -/
structure SState where
  watchlist : List String
  quotes : List (String × QuoteView)
  hist1 : List (String × List ℚ)
  hist5 : List (String × List ℚ)
  selectedSymbol : Option String
  lastQuoteFetchTime : Int
  lastHistoryFetchTime : Int
  isInitialHistoryLoaded : Bool
deriving DecidableEq

/-- Keyed insert-or-replace, modelling assignment into a JS object keyed by
symbol (`map[key] = value` after a spread copy). -/
def upsert (k : String) (v : α) : List (String × α) → List (String × α)
  | [] => [(k, v)]
  | (k', v') :: rest => if k = k' then (k, v) :: rest else (k', v') :: upsert k v rest

/-- Merge a response's per-symbol rows into an existing map, row by row. -/
def mergeInto (m : List (String × α)) (results : List (String × α)) :
    List (String × α) :=
  results.foldl (fun acc p => upsert p.1 p.2 acc) m

/-- Result of running a fetch or a scheduler tick: the new widget state, the
network calls performed, and the console error log entries emitted. -/
structure FetchOut where
  state : SState
  calls : List Call
  logs : List String
deriving DecidableEq

/-- Source `fetchQuotes` of StockWatchlist.vue. Early return when the watchlist is
empty. Forced with a selected symbol: fetch only it; otherwise the full batch.
On success the rows are merged into the quote map and — only when unforced —
`lastQuoteFetchTime` is stamped with `Date.now()`. On rejection the error is
logged and nothing else happens. -/
def fetchQuotes (forced : Bool) (res : FetchResult (List (String × QuoteView)))
    (now : Int) (s : SState) : FetchOut :=
  if s.watchlist = [] then ⟨s, [], []⟩
  else
    let syms := if forced then
        (match s.selectedSymbol with
         | some sel => [sel]
         | none => s.watchlist)
      else s.watchlist
    match res with
    | .ok results =>
        let s1 := { s with quotes := mergeInto s.quotes results }
        let s2 := if forced then s1 else { s1 with lastQuoteFetchTime := now }
        ⟨s2, [Call.quotes syms], []⟩
    | .fail => ⟨s, [Call.quotes syms], ["Failed to update quotes"]⟩

/-- Source `fetchHistory` of StockWatchlist.vue. Early return when the watchlist is
empty (before the try block, so the finally clause does not run). Forced with
a selected symbol: only it, at `'1min'`; otherwise the full batch at `'5min'`.
On success the rows are merged into the interval's bucket and — only when
unforced — `lastHistoryFetchTime` is stamped. On rejection the error is
logged. In the finally clause, an unforced call (success or failure) sets the
`isInitialHistoryLoaded` gate. -/
def fetchHistory (forced : Bool) (res : FetchResult (List (String × List ℚ)))
    (now : Int) (s : SState) : FetchOut :=
  if s.watchlist = [] then ⟨s, [], []⟩
  else
    let pick := if forced then
        (match s.selectedSymbol with
         | some sel => ([sel], Interval.one)
         | none => (s.watchlist, Interval.five))
      else (s.watchlist, Interval.five)
    let s1 := match res with
      | .ok results =>
          let su := match pick.2 with
            | .one => { s with hist1 := mergeInto s.hist1 results }
            | .five => { s with hist5 := mergeInto s.hist5 results }
          if forced then su else { su with lastHistoryFetchTime := now }
      | .fail => s
    let s2 := if forced then s1 else { s1 with isInitialHistoryLoaded := true }
    ⟨s2, [Call.history pick.1 pick.2],
     match res with | .ok _ => [] | .fail => ["Fetching history failed"]⟩

/-- Source `runScheduler` of StockWatchlist.vue: skip the tick when the market is
closed and no catch-up is due; else fetch quotes if their interval elapsed and
stop; else fetch history if its interval elapsed, the safety offset from the
last quote fetch has passed, and the clock is not inside the dead zone. -/
def runScheduler (c : Ctx) (resQ : FetchResult (List (String × QuoteView)))
    (resH : FetchResult (List (String × List ℚ))) (s : SState) : FetchOut :=
  let active := isMarketOpen c
  let catchup := needsClosingFetch c s.lastQuoteFetchTime
  if active = false ∧ catchup = false then ⟨s, [], []⟩
  else
    let timeSinceQuote := c.nowMs - s.lastQuoteFetchTime
    let timeSinceHistory := c.nowMs - s.lastHistoryFetchTime
    if QUOTE_INTERVAL_MS ≤ timeSinceQuote then fetchQuotes false resQ c.nowMs s
    else if HISTORY_INTERVAL_MS ≤ timeSinceHistory ∧ OFFSET_MS ≤ timeSinceQuote ∧
        isDeadZone c = false then
      fetchHistory false resH c.nowMs s
    else ⟨s, [], []⟩

/-- Source `selectStock` of StockWatchlist.vue: a no-op unless the
`isInitialHistoryLoaded` gate is set; otherwise record the selection and run
the two forced single-symbol fetches (`Promise.all`, modelled as both being
issued within the same step). -/
def selectStock (sym : String) (resQ : FetchResult (List (String × QuoteView)))
    (resH : FetchResult (List (String × List ℚ))) (now : Int) (s : SState) :
    FetchOut :=
  if s.isInitialHistoryLoaded = false then ⟨s, [], []⟩
  else
    let s0 := { s with selectedSymbol := some sym }
    let q := fetchQuotes true resQ now s0
    let h := fetchHistory true resH now q.state
    ⟨h.state, q.calls ++ h.calls, q.logs ++ h.logs⟩

/-- Source `getQuote` of StockWatchlist.vue: the symbol's quote, or the fallback
literal when the map has no entry for it. -/
def getQuote (s : SState) (symbol : String) : QuoteView :=
  (s.quotes.lookup symbol).getD fallbackQuote

/-- JS `x > 0` on a possibly-absent number: `undefined > 0` is false. -/
def optGtZero : Option ℚ → Bool
  | some x => decide (0 < x)
  | none => false

/-- JS `x < 0` on a possibly-absent number: `undefined < 0` is false. -/
def optLtZero : Option ℚ → Bool
  | some x => decide (x < 0)
  | none => false

/-- Source `getQuoteChangeColor` of StockWatchlist.vue. -/
def getQuoteChangeColor (s : SState) (symbol : String) : String :=
  let change := (getQuote s symbol).change
  if optGtZero change then "bg-green-500 text-white"
  else if optLtZero change then "bg-red-500 text-white"
  else "bg-slate-700 text-slate-300"

/-- Source `getTextChangeColor` of StockWatchlist.vue. -/
def getTextChangeColor (s : SState) (symbol : String) : String :=
  let change := (getQuote s symbol).change
  if optGtZero change then "text-green-500"
  else if optLtZero change then "text-red-500"
  else "text-zinc-400"

end Stock

namespace Ruuvi

/-- A timed trace: a data burst at 0 and 1000, the promote timer firing at
2000, and a fresh data message right after at 2001. -/
def exTrace : List Event :=
  [.data 0 (mkData 1), .data 1000 (mkData 2), .fire 2000, .data 2001 (mkData 3)]

/-- A timed trace with a single data message at 1000 followed only by
keepalive acknowledgments, and a health-check tick at 47000. -/
def hcTrace : List Event :=
  [.data 1000 (mkData 1), .fire 3000, .pong 21000, .pong 41000, .health 47000]

end Ruuvi

namespace Stock

/-- A five-symbol watchlist. -/
def watch5 : List String := ["AAPL", "MSFT", "NVDA", "AMZN", "META"]

/-- Tick context at 09:32 New York time on a Tuesday. -/
def c932 : Ctx :=
  { nyWeekday := .tue, nyHour := 9, nyMinute := 32, localDay := .tue,
    nowMs := 1764081120000 }

/-- Tick context one scheduler period later, at 09:35 New York time. -/
def c935 : Ctx := { c932 with nyMinute := 35, nowMs := 1764081120000 + 180000 }

/-- Tick context well inside trading hours (Wednesday 12:00 New York). -/
def cOpen : Ctx :=
  { nyWeekday := .wed, nyHour := 12, nyMinute := 0, localDay := .wed,
    nowMs := 1700000000000 }

/-- The same context one minute later. -/
def cOpen2 : Ctx := { cOpen with nowMs := 1700000000000 + 60000 }

/-- Widget state with the five-symbol watchlist and both fetch clocks at epoch
zero, as right after mount before any fetch. -/
def s5 : SState :=
  { watchlist := watch5, quotes := [], hist1 := [], hist5 := [],
    selectedSymbol := none, lastQuoteFetchTime := 0, lastHistoryFetchTime := 0,
    isInitialHistoryLoaded := false }

/-- The same state after the initial background history fetch set the gate. -/
def s5on : SState := { s5 with isInitialHistoryLoaded := true }

/-- Widget state with an empty quote map. -/
def emptyS : SState :=
  { watchlist := [], quotes := [], hist1 := [], hist5 := [],
    selectedSymbol := none, lastQuoteFetchTime := 0, lastHistoryFetchTime := 0,
    isInitialHistoryLoaded := false }

end Stock

namespace Stock

theorem fq_forced_clocks (res : FetchResult (List (String × QuoteView)))
    (now : Int) (s : SState) :
    (fetchQuotes true res now s).state.lastQuoteFetchTime = s.lastQuoteFetchTime ∧
    (fetchQuotes true res now s).state.lastHistoryFetchTime = s.lastHistoryFetchTime := by
  unfold fetchQuotes
  split
  · exact ⟨rfl, rfl⟩
  · cases res <;> simp

theorem fh_forced_clocks (res : FetchResult (List (String × List ℚ)))
    (now : Int) (s : SState) :
    (fetchHistory true res now s).state.lastQuoteFetchTime = s.lastQuoteFetchTime ∧
    (fetchHistory true res now s).state.lastHistoryFetchTime = s.lastHistoryFetchTime := by
  unfold fetchHistory
  split
  · exact ⟨rfl, rfl⟩
  · cases res with
    | ok results => cases s.selectedSymbol <;> simp
    | fail => simp

theorem fq_fail_state (forced : Bool) (now : Int) (s : SState) :
    (fetchQuotes forced .fail now s).state = s := by
  unfold fetchQuotes
  split
  · rfl
  · simp

theorem fh_fail_clocks (forced : Bool) (now : Int) (s : SState) :
    (fetchHistory forced .fail now s).state.lastQuoteFetchTime = s.lastQuoteFetchTime ∧
    (fetchHistory forced .fail now s).state.lastHistoryFetchTime = s.lastHistoryFetchTime := by
  unfold fetchHistory
  split
  · exact ⟨rfl, rfl⟩
  · cases forced <;> simp

theorem fq_lastHistory (forced : Bool) (res : FetchResult (List (String × QuoteView)))
    (now : Int) (s : SState) :
    (fetchQuotes forced res now s).state.lastHistoryFetchTime = s.lastHistoryFetchTime := by
  unfold fetchQuotes
  split
  · rfl
  · cases res with
    | ok results => cases forced <;> simp
    | fail => rfl

theorem fh_lastQuote (forced : Bool) (res : FetchResult (List (String × List ℚ)))
    (now : Int) (s : SState) :
    (fetchHistory forced res now s).state.lastQuoteFetchTime = s.lastQuoteFetchTime := by
  unfold fetchHistory
  split
  · rfl
  · cases res with
    | ok results => cases forced <;> cases s.selectedSymbol <;> simp
    | fail => cases forced <;> simp

/-- Claim C5: a forced single-symbol fetch (quote or history) mutates neither
`lastFetchAt[quotes]` nor `lastFetchAt[history]`, whatever the network
outcome; a failed unforced fetch does not stamp its own clock; each fetch
never touches the other class's clock — so the clocks advance only on
unforced, successful full-batch fetches. -/
theorem forced_fetch_frame :
    ∀ (s : SState) (now : Int) (resQ : FetchResult (List (String × QuoteView)))
      (resH : FetchResult (List (String × List ℚ))),
      (fetchQuotes true resQ now s).state.lastQuoteFetchTime = s.lastQuoteFetchTime ∧
      (fetchQuotes true resQ now s).state.lastHistoryFetchTime = s.lastHistoryFetchTime ∧
      (fetchHistory true resH now s).state.lastQuoteFetchTime = s.lastQuoteFetchTime ∧
      (fetchHistory true resH now s).state.lastHistoryFetchTime = s.lastHistoryFetchTime ∧
      (fetchQuotes false .fail now s).state.lastQuoteFetchTime = s.lastQuoteFetchTime ∧
      (fetchHistory false .fail now s).state.lastHistoryFetchTime = s.lastHistoryFetchTime ∧
      (fetchQuotes false resQ now s).state.lastHistoryFetchTime = s.lastHistoryFetchTime ∧
      (fetchHistory false resH now s).state.lastQuoteFetchTime = s.lastQuoteFetchTime := by
  intro s now resQ resH
  exact ⟨(fq_forced_clocks resQ now s).1, (fq_forced_clocks resQ now s).2,
    (fh_forced_clocks resH now s).1, (fh_forced_clocks resH now s).2,
    by rw [fq_fail_state], (fh_fail_clocks false now s).2,
    fq_lastHistory false resQ now s, fh_lastQuote false resH now s⟩

/-- Claim C10: looking up a symbol missing from the quote map yields the
fallback record with zero `price`/`change`/`changePercent`, both color helpers
then return the neutral style, and the fallback has no `close` or
`percent_change` fields. -/
theorem total_quote_lookup (s : SState) (symbol : String)
    (h : s.quotes.lookup symbol = none) :
    getQuote s symbol = fallbackQuote ∧
    getQuoteChangeColor s symbol = "bg-slate-700 text-slate-300" ∧
    getTextChangeColor s symbol = "text-zinc-400" ∧
    fallbackQuote.close = none ∧ fallbackQuote.percent_change = none := by
  have hq : getQuote s symbol = fallbackQuote := by simp [getQuote, h]
  refine ⟨hq, ?_, ?_, rfl, rfl⟩ <;>
    simp [getQuoteChangeColor, getTextChangeColor, hq, fallbackQuote, optGtZero, optLtZero]

/-- Witness for C10 at a concrete empty quote map. -/
theorem total_quote_lookup_witness :
    emptyS.quotes.lookup "AAPL" = none ∧ getQuote emptyS "AAPL" = fallbackQuote :=
  ⟨rfl, (total_quote_lookup emptyS "AAPL" rfl).1⟩

theorem runScheduler_quote_branch (c : Ctx) (resQ : FetchResult (List (String × QuoteView)))
    (resH : FetchResult (List (String × List ℚ))) (s : SState)
    (hopen : isMarketOpen c = true)
    (hdue : QUOTE_INTERVAL_MS ≤ c.nowMs - s.lastQuoteFetchTime) :
    runScheduler c resQ resH s = fetchQuotes false resQ c.nowMs s := by
  unfold runScheduler
  rw [if_neg (by simp [hopen]), if_pos hdue]

/-- Claim C3: on a tick where the market gate passes and the quote interval
has elapsed, with a nonempty watchlist and a successful call, exactly one
full-batch quote fetch is performed, `lastFetchAt[quotes]` is stamped with the
tick's clock, the history clock is untouched and no history fetch happens in
the same tick. -/
theorem quota_priority_tick (c : Ctx) (s : SState)
    (results : List (String × QuoteView)) (resH : FetchResult (List (String × List ℚ)))
    (hopen : isMarketOpen c = true)
    (hdue : QUOTE_INTERVAL_MS ≤ c.nowMs - s.lastQuoteFetchTime)
    (hne : s.watchlist ≠ []) :
    (runScheduler c (.ok results) resH s).calls = [Call.quotes s.watchlist] ∧
    (runScheduler c (.ok results) resH s).state.lastQuoteFetchTime = c.nowMs ∧
    (runScheduler c (.ok results) resH s).state.lastHistoryFetchTime = s.lastHistoryFetchTime ∧
    ∀ syms i, Call.history syms i ∉ (runScheduler c (.ok results) resH s).calls := by
  rw [runScheduler_quote_branch c (.ok results) resH s hopen hdue]
  unfold fetchQuotes
  rw [if_neg hne]
  simp

/-- Witness for C3 at a concrete mid-day open-market tick. -/
theorem quota_priority_witness :
    isMarketOpen cOpen = true ∧
    (runScheduler cOpen (.ok []) (.ok []) s5).calls = [Call.quotes watch5] :=
  ⟨by decide,
    (quota_priority_tick cOpen s5 [] (.ok []) (by decide) (by decide) (by decide)).1⟩

/-- Claim C7: selecting a symbol while the `isInitialHistoryLoaded` gate is
unset is a no-op (no selection recorded, no call issued, no log emitted);
once the gate is set and the watchlist is nonempty, selecting records the
symbol and issues exactly the two forced single-symbol fetches — the
high-resolution quote and the `'1min'` history. -/
theorem selection_gate (s s' : SState) (sym : String)
    (resQ : FetchResult (List (String × QuoteView)))
    (resH : FetchResult (List (String × List ℚ))) (now : Int)
    (hoff : s'.isInitialHistoryLoaded = false)
    (hg : s.isInitialHistoryLoaded = true)
    (hw : s.watchlist ≠ []) :
    selectStock sym resQ resH now s' = ⟨s', [], []⟩ ∧
    (selectStock sym resQ resH now s).state.selectedSymbol = some sym ∧
    (selectStock sym resQ resH now s).calls
      = [Call.quotes [sym], Call.history [sym] Interval.one] := by
  refine ⟨by unfold selectStock; rw [if_pos hoff], ?_⟩
  unfold selectStock
  rw [if_neg (by simp [hg])]
  cases resQ <;> cases resH <;>
    simp [fetchQuotes, fetchHistory, hw, mergeInto]

/-- Witness for C7 at concrete gate-off and gate-on states. -/
theorem selection_gate_witness :
    s5.isInitialHistoryLoaded = false ∧ s5on.isInitialHistoryLoaded = true ∧
    selectStock "AAPL" (.ok []) (.ok []) 0 s5 = ⟨s5, [], []⟩ ∧
    (selectStock "AAPL" (.ok []) (.ok []) 0 s5on).calls
      = [Call.quotes ["AAPL"], Call.history ["AAPL"] Interval.one] :=
  ⟨rfl, rfl,
    (selection_gate s5on s5 "AAPL" (.ok []) (.ok []) 0 rfl rfl (by decide)).1,
    (selection_gate s5on s5 "AAPL" (.ok []) (.ok []) 0 rfl rfl (by decide)).2.2⟩

theorem fq_fail_logs (forced : Bool) (now : Int) (s : SState) (hw : s.watchlist ≠ []) :
    (fetchQuotes forced .fail now s).logs = ["Failed to update quotes"] := by
  unfold fetchQuotes
  rw [if_neg hw]

theorem fh_fail_logs (forced : Bool) (now : Int) (s : SState) (hw : s.watchlist ≠ []) :
    (fetchHistory forced .fail now s).logs = ["Fetching history failed"] := by
  unfold fetchHistory
  rw [if_neg hw]

/-- Claim C8: a fetch whose network call rejects (quote or history, forced or
unforced) logs the error and stamps neither clock; a tick whose quote call
rejects leaves both clocks untouched; and the ticker keeps going — the next
tick at or after it, with the market still open, retries the same full-batch
quote fetch and stamps the clock on success. The scheduler functions are
total, embedding that no exception escapes the catch blocks. -/
theorem fetch_failure_atomicity (s : SState) (c1 c2 : Ctx)
    (results : List (String × QuoteView))
    (resH resH2 : FetchResult (List (String × List ℚ)))
    (now : Int) (forced : Bool)
    (hw : s.watchlist ≠ [])
    (hopen1 : isMarketOpen c1 = true)
    (hdue1 : QUOTE_INTERVAL_MS ≤ c1.nowMs - s.lastQuoteFetchTime)
    (hopen2 : isMarketOpen c2 = true)
    (hts : c1.nowMs ≤ c2.nowMs) :
    (fetchQuotes forced .fail now s).state = s ∧
    (fetchQuotes forced .fail now s).logs = ["Failed to update quotes"] ∧
    (fetchHistory forced .fail now s).state.lastQuoteFetchTime = s.lastQuoteFetchTime ∧
    (fetchHistory forced .fail now s).state.lastHistoryFetchTime = s.lastHistoryFetchTime ∧
    (fetchHistory forced .fail now s).logs = ["Fetching history failed"] ∧
    (runScheduler c1 .fail resH s).state.lastQuoteFetchTime = s.lastQuoteFetchTime ∧
    (runScheduler c1 .fail resH s).state.lastHistoryFetchTime = s.lastHistoryFetchTime ∧
    (runScheduler c1 .fail resH s).logs = ["Failed to update quotes"] ∧
    (runScheduler c2 (.ok results) resH2 (runScheduler c1 .fail resH s).state).calls
      = [Call.quotes s.watchlist] ∧
    (runScheduler c2 (.ok results) resH2
        (runScheduler c1 .fail resH s).state).state.lastQuoteFetchTime = c2.nowMs := by
  have h1 : runScheduler c1 .fail resH s = fetchQuotes false .fail c1.nowMs s :=
    runScheduler_quote_branch c1 .fail resH s hopen1 hdue1
  have hst : (runScheduler c1 .fail resH s).state = s := by
    rw [h1, fq_fail_state]
  have hdue2 : QUOTE_INTERVAL_MS ≤ c2.nowMs - s.lastQuoteFetchTime := by omega
  have h2 : runScheduler c2 (.ok results) resH2 (runScheduler c1 .fail resH s).state
      = fetchQuotes false (.ok results) c2.nowMs s := by
    rw [hst]
    exact runScheduler_quote_branch c2 (.ok results) resH2 s hopen2 hdue2
  refine ⟨fq_fail_state forced now s, fq_fail_logs forced now s hw,
    (fh_fail_clocks forced now s).1, (fh_fail_clocks forced now s).2,
    fh_fail_logs forced now s hw,
    by rw [hst], by rw [hst], by rw [h1]; exact fq_fail_logs false c1.nowMs s hw,
    ?_, ?_⟩ <;>
  · rw [h2]
    unfold fetchQuotes
    rw [if_neg hw]
    simp

/-- Witness for C8 at a concrete failing tick followed by a successful one. -/
theorem fetch_failure_witness :
    (runScheduler cOpen .fail (.ok []) s5).state.lastQuoteFetchTime
      = s5.lastQuoteFetchTime ∧
    (runScheduler cOpen2 (.ok []) (.ok [])
        (runScheduler cOpen .fail (.ok []) s5).state).calls = [Call.quotes watch5] :=
  ⟨(fetch_failure_atomicity s5 cOpen cOpen2 [] (.ok []) (.ok []) 0 false (by decide)
      (by decide) (by decide) (by decide) (by decide)).2.2.2.2.2.1,
   (fetch_failure_atomicity s5 cOpen cOpen2 [] (.ok []) (.ok []) 0 false (by decide)
      (by decide) (by decide) (by decide) (by decide)).2.2.2.2.2.2.2.2.1⟩

/-- Claim C4 is refuted: at 09:32 New York time on a Tuesday with a 5-symbol
watchlist and both `lastFetchAt` clocks at epoch zero, the market is open, the
clock is inside the dead zone and both intervals have elapsed — yet the
scheduler tick does perform a fetch (the full-batch quote fetch), contradicting
the claimed "no fetch at all". -/
theorem dead_zone_scenario_counterexample :
    isMarketOpen c932 = true ∧ isDeadZone c932 = true ∧
    QUOTE_INTERVAL_MS ≤ c932.nowMs - s5.lastQuoteFetchTime ∧
    HISTORY_INTERVAL_MS ≤ c932.nowMs - s5.lastHistoryFetchTime ∧
    (runScheduler c932 (.ok []) (.ok []) s5).calls ≠ [] := by
  decide

/-- Claim C4 as amended: the post-open dead zone suppresses only history
fetches. At 09:32 ET on a Tuesday with epoch-zero clocks the tick performs the
full-batch quote fetch and stamps the quote clock, leaving the history clock
alone; a tick at 09:32 whose quote clock is fresh performs no fetch at all
(history is due but the dead zone holds); and the 09:35 tick that follows the
09:32 quote fetch performs the full-batch history fetch. -/
theorem dead_zone_scenario_amended :
    (runScheduler c932 (.ok []) (.ok []) s5).calls = [Call.quotes watch5] ∧
    (runScheduler c932 (.ok []) (.ok []) s5).state.lastQuoteFetchTime = c932.nowMs ∧
    (runScheduler c932 (.ok []) (.ok []) s5).state.lastHistoryFetchTime = 0 ∧
    (runScheduler c932 (.ok []) (.ok [])
        { s5 with lastQuoteFetchTime := c932.nowMs - 3 * 60 * 1000 }).calls = [] ∧
    (runScheduler c935 (.ok []) (.ok [])
        (runScheduler c932 (.ok []) (.ok []) s5).state).calls
      = [Call.history watch5 Interval.five] := by
  decide

end Stock

namespace Reconn

theorem inv_preserved (s : RTState) (e : REvent)
    (h1 : s.pendingCount ≤ 1) (h2 : s.timerVar = (s.pendingCount == 1)) :
    (rstep s e).pendingCount ≤ 1 ∧
    (rstep s e).timerVar = ((rstep s e).pendingCount == 1) := by
  obtain ⟨c, v⟩ := s
  cases e <;> cases v <;> simp_all [rstep]
  omega

theorem inv_run (es : List REvent) :
    ∀ s : RTState, s.pendingCount ≤ 1 → s.timerVar = (s.pendingCount == 1) →
      (runReconn s es).pendingCount ≤ 1 ∧
      (runReconn s es).timerVar = ((runReconn s es).pendingCount == 1) := by
  induction es with
  | nil => intro s h1 h2; exact ⟨h1, h2⟩
  | cons e es ih =>
      intro s h1 h2
      have hs := inv_preserved s e h1 h2
      exact ih (rstep s e) hs.1 hs.2

/-- Claim C6: over every interleaving of close events, open events,
visibility-triggered connects and reconnect-timer firings from the mount
state, at most one reconnect timer is live, and the `reconnectTimer` variable
is non-null exactly when one is; a close while a timer is pending changes
nothing, and a close with none pending schedules exactly one. -/
theorem reconnect_timer_uniqueness :
    (∀ es : List REvent,
        (runReconn initR es).pendingCount ≤ 1 ∧
        (runReconn initR es).timerVar = ((runReconn initR es).pendingCount == 1)) ∧
    (∀ c : Nat, rstep ⟨c, true⟩ .close = ⟨c, true⟩) ∧
    (∀ c : Nat, rstep ⟨c, false⟩ .close = ⟨c + 1, true⟩) :=
  ⟨fun es => inv_run es initR (by decide) (by decide),
   fun _ => rfl, fun _ => rfl⟩

end Reconn

namespace Ruuvi

theorem lastN_of_length_le (l : List α) (h : l.length ≤ n) : lastN n l = l := by
  simp [lastN, Nat.sub_eq_zero_of_le h]

theorem lastN_cons_of_le (n : Nat) (x : α) (t : List α) (h : n ≤ t.length) :
    lastN n (x :: t) = lastN n t := by
  have he : (x :: t).length - n = (t.length - n) + 1 := by
    simp only [List.length_cons]
    omega
  simp only [lastN, he, List.drop_succ_cons]

theorem updateHistory_below (l : List ℚ) (v : ℚ) (h : l.length < HISTORY_SIZE) :
    updateHistory l v = l ++ [v] := by
  unfold updateHistory
  rw [if_neg]
  simp only [List.length_append, List.length_singleton]
  omega

theorem updateHistory_full (x : ℚ) (l : List ℚ) (v : ℚ)
    (h : (x :: l).length = HISTORY_SIZE) :
    updateHistory (x :: l) v = l ++ [v] := by
  unfold updateHistory
  rw [if_pos]
  · simp
  · simp only [List.length_append, List.length_cons, List.length_singleton]
    simp only [List.length_cons] at h
    omega

theorem foldl_updateHistory (vs : List ℚ) :
    ∀ l : List ℚ, l.length ≤ HISTORY_SIZE →
      List.foldl updateHistory l vs = lastN HISTORY_SIZE (l ++ vs) := by
  induction vs with
  | nil =>
      intro l h
      simpa using (lastN_of_length_le l h).symm
  | cons v vs ih =>
      intro l h
      rw [List.foldl_cons]
      rcases Nat.lt_or_ge l.length HISTORY_SIZE with hlt | hge
      · rw [updateHistory_below l v hlt,
          ih (l ++ [v]) (by simp only [List.length_append, List.length_singleton]; omega)]
        simp
      · have hlen : l.length = HISTORY_SIZE := Nat.le_antisymm h hge
        obtain ⟨x, l', rfl⟩ : ∃ x l', l = x :: l' := by
          cases l with
          | nil => simp [HISTORY_SIZE] at hlen
          | cons a b => exact ⟨a, b, rfl⟩
        rw [updateHistory_full x l' v hlen, ih (l' ++ [v])
          (by simp only [List.length_append, List.length_singleton]
              simp only [List.length_cons] at hlen
              omega)]
        have hl : HISTORY_SIZE ≤ (l' ++ v :: vs).length := by
          simp only [List.length_append, List.length_cons] at hlen ⊢
          omega
        calc lastN HISTORY_SIZE ((l' ++ [v]) ++ vs)
            = lastN HISTORY_SIZE (l' ++ v :: vs) := by simp
          _ = lastN HISTORY_SIZE (x :: (l' ++ v :: vs)) := (lastN_cons_of_le _ x _ hl).symm
          _ = lastN HISTORY_SIZE ((x :: l') ++ v :: vs) := by simp

theorem step_data_buffers (s : State) (t : Nat) (d : SensorData) :
    (step s (.data t d)).tempHistory = updateHistory s.tempHistory d.temperature ∧
    (step s (.data t d)).humidityHistory = updateHistory s.humidityHistory d.humidity ∧
    (step s (.data t d)).pressureHistory = updateHistory s.pressureHistory d.pressure := by
  refine ⟨?_, ?_, ?_⟩ <;> (simp only [step]; split <;> rfl)

theorem step_fire_buffers (s : State) (t : Nat) :
    (step s (.fire t)).tempHistory = s.tempHistory ∧
    (step s (.fire t)).humidityHistory = s.humidityHistory ∧
    (step s (.fire t)).pressureHistory = s.pressureHistory := by
  refine ⟨?_, ?_, ?_⟩ <;> (simp only [step]; split <;> rfl)

theorem step_health_buffers (s : State) (t : Nat) :
    (step s (.health t)).tempHistory = s.tempHistory ∧
    (step s (.health t)).humidityHistory = s.humidityHistory ∧
    (step s (.health t)).pressureHistory = s.pressureHistory := by
  refine ⟨?_, ?_, ?_⟩ <;> (simp only [step]; split <;> rfl)

theorem run_buffers : ∀ (es : List Event) (s : State),
    (run s es).tempHistory = List.foldl updateHistory s.tempHistory (dataTemps es) ∧
    (run s es).humidityHistory = List.foldl updateHistory s.humidityHistory (dataHums es) ∧
    (run s es).pressureHistory = List.foldl updateHistory s.pressureHistory (dataPres es) := by
  intro es
  induction es with
  | nil => intro s; exact ⟨rfl, rfl, rfl⟩
  | cons e es ih =>
      intro s
      have hrun : run s (e :: es) = run (step s e) es := rfl
      cases e with
      | data t d =>
          have hb := step_data_buffers s t d
          have hi := ih (step s (.data t d))
          refine ⟨?_, ?_, ?_⟩ <;>
            simp [hrun, dataTemps, dataHums, dataPres, hi.1, hi.2.1, hi.2.2,
              hb.1, hb.2.1, hb.2.2]
      | pong t =>
          have hi := ih (step s (.pong t))
          exact ⟨hi.1, hi.2.1, hi.2.2⟩
      | fire t =>
          have hb := step_fire_buffers s t
          have hi := ih (step s (.fire t))
          refine ⟨?_, ?_, ?_⟩ <;>
            simp [hrun, dataTemps, dataHums, dataPres, hi.1, hi.2.1, hi.2.2,
              hb.1, hb.2.1, hb.2.2]
      | health t =>
          have hb := step_health_buffers s t
          have hi := ih (step s (.health t))
          refine ⟨?_, ?_, ?_⟩ <;>
            simp [hrun, dataTemps, dataHums, dataPres, hi.1, hi.2.1, hi.2.2,
              hb.1, hb.2.1, hb.2.2]

/-- Claim C9: folding any sequence of values into an empty rolling buffer
yields exactly the last `HISTORY_SIZE` of them in arrival order (hence never
more than 50); along any session event trace started by `connect()` — which
empties all three buffers — each buffer equals the last 50 readings of that
session's accepted data messages; and the average of an empty buffer is 0. -/
theorem rolling_buffers :
    (∀ vs : List ℚ, List.foldl updateHistory [] vs = lastN HISTORY_SIZE vs) ∧
    (∀ vs : List ℚ, (List.foldl updateHistory [] vs).length ≤ HISTORY_SIZE) ∧
    (∀ (s : State) (es : List Event),
        (run (connect s) es).tempHistory = lastN HISTORY_SIZE (dataTemps es) ∧
        (run (connect s) es).humidityHistory = lastN HISTORY_SIZE (dataHums es) ∧
        (run (connect s) es).pressureHistory = lastN HISTORY_SIZE (dataPres es)) ∧
    (∀ s : State, (connect s).tempHistory = [] ∧ (connect s).humidityHistory = [] ∧
        (connect s).pressureHistory = []) ∧
    calculateAverage [] = 0 := by
  have hfold : ∀ vs : List ℚ, List.foldl updateHistory [] vs = lastN HISTORY_SIZE vs := by
    intro vs
    simpa using foldl_updateHistory vs [] (by simp)
  refine ⟨hfold, ?_, ?_, fun s => ⟨rfl, rfl, rfl⟩, rfl⟩
  · intro vs
    rw [hfold vs]
    simp only [lastN, List.length_drop]
    omega
  · intro s es
    have hr := run_buffers es (connect s)
    exact ⟨by rw [hr.1]; exact hfold _, by rw [hr.2.1]; exact hfold _,
      by rw [hr.2.2]; exact hfold _⟩

theorem step_data_lastMessageAt (s : State) (t : Nat) (d : SensorData) :
    (step s (.data t d)).lastMessageAt = t := by
  simp only [step]
  split <;> rfl

theorem step_fire_lastMessageAt (s : State) (t : Nat) :
    (step s (.fire t)).lastMessageAt = s.lastMessageAt := by
  simp only [step]
  split <;> rfl

theorem step_health_lastMessageAt (s : State) (t : Nat) :
    (step s (.health t)).lastMessageAt = s.lastMessageAt := by
  simp only [step]
  split <;> rfl

theorem run_lastMessageAt : ∀ (es : List Event) (s : State),
    (run s es).lastMessageAt = lastMsgAt s.lastMessageAt es := by
  intro es
  induction es with
  | nil => intro s; rfl
  | cons e es ih =>
      intro s
      have hrun : run s (e :: es) = run (step s e) es := rfl
      cases e with
      | data t d =>
          rw [hrun, ih (step s (.data t d)), step_data_lastMessageAt]
          rfl
      | pong t => exact ih (step s (.pong t))
      | fire t =>
          rw [hrun, ih (step s (.fire t)), step_fire_lastMessageAt]
          rfl
      | health t =>
          rw [hrun, ih (step s (.health t)), step_health_lastMessageAt]
          rfl

/-- Claim C2 is refuted: on a session whose only data message arrives at
t = 1000 and that afterwards receives only keepalive acknowledgments, the
health-check tick at t = 47000 — 46 seconds of data silence, beyond the 45 s
budget — does not force a close (the code's `lastMessageAt` was refreshed by
the pongs), and a pong does change `lastMessageAt`, not only the
WatchdogDeadline. -/
theorem health_check_counterexample :
    wfB 0 none hcTrace = true ∧
    lastDataAt 0 hcTrace = 1000 ∧
    WATCHDOG_MS < 47000 - lastDataAt 0 hcTrace ∧
    (run initOpen hcTrace).closedCode = none ∧
    (step initOpen (.pong 21000)).lastMessageAt ≠ initOpen.lastMessageAt := by
  decide

/-- Claim C2 as amended: the health-check detector measures the wall-clock
delta since the last inbound message of any kind — keepalive acknowledgments
included — and, while the session is open, forces the close with its
distinguished code 4001 exactly when that delta exceeds the 45 s budget; a
keepalive acknowledgment updates `lastMessageAt` and the WatchdogDeadline and
changes nothing else. -/
theorem health_check_amended (t : Nat) (s : State) (h : s.closedCode = none) :
    ((step s (.health t)).closedCode = some 4001 ↔ WATCHDOG_MS < t - s.lastMessageAt) ∧
    (step s (.pong t)).lastMessageAt = t ∧
    (step s (.pong t)).watchdogDeadline = t + WATCHDOG_MS ∧
    (step s (.pong t)).latestData = s.latestData ∧
    (step s (.pong t)).displayData = s.displayData ∧
    (step s (.pong t)).throttlePending = s.throttlePending ∧
    (step s (.pong t)).tempHistory = s.tempHistory ∧
    (step s (.pong t)).humidityHistory = s.humidityHistory ∧
    (step s (.pong t)).pressureHistory = s.pressureHistory ∧
    (step s (.pong t)).isConnected = s.isConnected ∧
    (step s (.pong t)).closedCode = s.closedCode ∧
    ∀ es : List Event, (run s es).lastMessageAt = lastMsgAt s.lastMessageAt es := by
  refine ⟨?_, rfl, rfl, rfl, rfl, rfl, rfl, rfl, rfl, rfl, rfl,
    fun es => run_lastMessageAt es s⟩
  simp only [step]
  split
  · next hc => simp [hc]
  · next hc => simp [h, hc]

/-- Witness for C2's amended theorem on the freshly opened session at a
health tick 50 seconds in. -/
theorem health_check_amended_witness :
    initOpen.closedCode = none ∧
    ((step initOpen (.health 50000)).closedCode = some 4001 ↔
      WATCHDOG_MS < 50000 - initOpen.lastMessageAt) :=
  ⟨rfl, (health_check_amended 50000 initOpen rfl).1⟩

theorem spacedB_cons (n a : Nat) (l : List Nat) (h1 : spacedB n l = true)
    (h2 : ∀ u ∈ l, a + n ≤ u) : spacedB n (a :: l) = true := by
  cases l with
  | nil => rfl
  | cons b r =>
      simp only [spacedB, Bool.and_eq_true, decide_eq_true_eq]
      exact ⟨h2 b (List.mem_cons_self b r), h1⟩

theorem step_data_pending (s : State) (t : Nat) (d : SensorData) :
    (step s (.data t d)).throttlePending = true := by
  simp only [step]
  split
  · next h => exact h
  · rfl

theorem step_pong_pending (s : State) (t : Nat) :
    (step s (.pong t)).throttlePending = s.throttlePending := rfl

theorem step_fire_pending (s : State) (t : Nat) :
    (step s (.fire t)).throttlePending = false := by
  simp only [step]
  split <;> rfl

theorem step_health_pending (s : State) (t : Nat) :
    (step s (.health t)).throttlePending = s.throttlePending := by
  simp only [step]
  split <;> rfl

theorem step_data_display (s : State) (t : Nat) (d : SensorData)
    (h : s.throttlePending = false) :
    (step s (.data t d)).displayData = some d := by
  simp only [step]
  rw [if_neg (by simp [h])]

theorem msgPromotes_spacing :
    ∀ (es : List Event) (s : State) (now : Nat) (pend : Option Nat),
      wfB now pend es = true → s.throttlePending = pend.isSome →
      spacedB THROTTLE_MS (msgPromotes s es) = true ∧
      ∀ u ∈ msgPromotes s es, pendBound now pend ≤ u := by
  intro es
  induction es with
  | nil =>
      intro s now pend _ _
      exact ⟨rfl, fun u hu => absurd hu (by simp [msgPromotes])⟩
  | cons e es ih =>
      intro s now pend hwf hp
      cases e with
      | data t d =>
          cases pend with
          | none =>
              have hp' : s.throttlePending = false := by simpa using hp
              simp only [wfB, Bool.and_eq_true, decide_eq_true_eq] at hwf
              obtain ⟨hnt, hwf'⟩ := hwf
              have hih := ih (step s (.data t d)) t (some (t + THROTTLE_MS)) hwf'
                (by rw [step_data_pending]; rfl)
              have hMP : msgPromotes s (.data t d :: es)
                  = t :: msgPromotes (step s (.data t d)) es := by
                simp [msgPromotes, hp']
              rw [hMP]
              refine ⟨spacedB_cons _ _ _ hih.1 (fun u hu => hih.2 u hu), ?_⟩
              intro u hu
              rcases List.mem_cons.mp hu with rfl | hu'
              · exact hnt
              · have hb := hih.2 u hu'
                simp only [pendBound] at hb ⊢
                omega
          | some tf =>
              have hp' : s.throttlePending = true := by simpa using hp
              simp only [wfB, Bool.and_eq_true, decide_eq_true_eq] at hwf
              obtain ⟨⟨hnt, htf⟩, hwf'⟩ := hwf
              have hih := ih (step s (.data t d)) t (some tf) hwf'
                (by rw [step_data_pending]; rfl)
              have hMP : msgPromotes s (.data t d :: es)
                  = msgPromotes (step s (.data t d)) es := by
                simp [msgPromotes, hp']
              rw [hMP]
              exact ⟨hih.1, fun u hu => hih.2 u hu⟩
      | fire t =>
          cases pend with
          | none => simp [wfB] at hwf
          | some tf =>
              simp only [wfB, Bool.and_eq_true, decide_eq_true_eq] at hwf
              obtain ⟨⟨hnt, hte⟩, hwf'⟩ := hwf
              have hih := ih (step s (.fire t)) t none hwf'
                (by rw [step_fire_pending]; rfl)
              have hMP : msgPromotes s (.fire t :: es)
                  = msgPromotes (step s (.fire t)) es := rfl
              rw [hMP]
              refine ⟨hih.1, fun u hu => ?_⟩
              have hb := hih.2 u hu
              simp only [pendBound] at hb ⊢
              omega
      | pong t =>
          cases pend with
          | none =>
              simp only [wfB, Bool.and_eq_true, decide_eq_true_eq] at hwf
              obtain ⟨hnt, hwf'⟩ := hwf
              have hih := ih (step s (.pong t)) t none hwf'
                (by rw [step_pong_pending]; exact hp)
              refine ⟨hih.1, fun u hu => ?_⟩
              have hb := hih.2 u hu
              simp only [pendBound] at hb ⊢
              omega
          | some tf =>
              simp only [wfB, Bool.and_eq_true, decide_eq_true_eq] at hwf
              obtain ⟨⟨hnt, htf⟩, hwf'⟩ := hwf
              have hih := ih (step s (.pong t)) t (some tf) hwf'
                (by rw [step_pong_pending]; exact hp)
              exact ⟨hih.1, fun u hu => hih.2 u hu⟩
      | health t =>
          cases pend with
          | none =>
              simp only [wfB, Bool.and_eq_true, decide_eq_true_eq] at hwf
              obtain ⟨hnt, hwf'⟩ := hwf
              have hih := ih (step s (.health t)) t none hwf'
                (by rw [step_health_pending]; exact hp)
              refine ⟨hih.1, fun u hu => ?_⟩
              have hb := hih.2 u hu
              simp only [pendBound] at hb ⊢
              omega
          | some tf =>
              simp only [wfB, Bool.and_eq_true, decide_eq_true_eq] at hwf
              obtain ⟨⟨hnt, htf⟩, hwf'⟩ := hwf
              have hih := ih (step s (.health t)) t (some tf) hwf'
                (by rw [step_health_pending]; exact hp)
              exact ⟨hih.1, fun u hu => hih.2 u hu⟩

/-- Claim C1 is refuted: on the well-formed timed trace with accepted data
messages at 0, 1000 and 2001 ms and the promote timer firing at 2000 ms, the
displayed value changes at 0, 2000 and 2001 ms — twice within one 2000 ms
throttle interval — so `display` does not change at most once per throttle
interval. -/
theorem throttle_promote_counterexample :
    wfB 0 none exTrace = true ∧
    displayChangeTimes initOpen exTrace = [0, 2000, 2001] ∧
    spacedB THROTTLE_MS (displayChangeTimes initOpen exTrace) = false := by
  decide

/-- Claim C1 as amended: along every well-formed timed trace, the immediate
message-triggered promotions are at least one throttle interval (2000 ms)
apart; a message arriving while no promote timer is pending is copied into
`display` with zero delay and arms the timer; and when the promote timer
fires, whatever `latest` holds at that moment — not the value of the
triggering message — is copied into `display` and the pending flag is
cleared. (Display may thus change up to twice per interval: once at a timer
fire and once at the next message after it.) -/
theorem throttle_promote_amended :
    (∀ (s : State) (es : List Event) (now : Nat),
        wfB now none es = true → s.throttlePending = false →
        spacedB THROTTLE_MS (msgPromotes s es) = true) ∧
    (∀ (s : State) (t : Nat) (d : SensorData), s.throttlePending = false →
        (step s (.data t d)).displayData = some d ∧
        (step s (.data t d)).throttlePending = true) ∧
    (∀ (s : State) (t : Nat) (d : SensorData), s.latestData = some d →
        (step s (.fire t)).displayData = some d ∧
        (step s (.fire t)).throttlePending = false) := by
  refine ⟨?_, ?_, ?_⟩
  · intro s es now hwf hp
    exact (msgPromotes_spacing es s now none hwf hp).1
  · intro s t d h
    exact ⟨step_data_display s t d h, step_data_pending s t d⟩
  · intro s t d h
    constructor <;> simp [step, h]

/-- Witness for C1's amended theorem on the concrete burst trace. -/
theorem throttle_promote_witness :
    wfB 0 none exTrace = true ∧ initOpen.throttlePending = false ∧
    spacedB THROTTLE_MS (msgPromotes initOpen exTrace) = true :=
  ⟨by decide, rfl, throttle_promote_amended.1 initOpen exTrace 0 (by decide) rfl⟩

end Ruuvi
